import Mathlib

/-!
Verification of the jkv key-value store (filesystem backend `store/fs/fs.go`
and the line-oriented command dispatcher `jkv-cli/main.go`) against its
natural-language specification.

The filesystem fragment the backend touches is modelled as the tree under the
root directory of the client, `R`: the file listing of `R/scalars` and, for each
hash, the file listing of `R/hashes/<hash>`.  Directory listings are
association lists from entry name to contents; `none` models a missing
directory.  `os.MkdirAll` and `os.RemoveAll` never fail in this model
(permission failures are out of scope); `os.ReadFile`, `os.WriteFile`,
`os.Remove`, `os.Stat` and `os.ReadDir` fail exactly when the path they touch
is missing, which the model reports as `Err.notFound` (the Go `ENOENT` class).
-/

namespace Jkv

/-- Errors observable through the backend contract.  `notOpen` is the
`errors.New ("DB is not open")` value of `fs.go`; `notFound` stands for the
`ENOENT`-class errors returned by `os` calls on missing paths; `typeConflict`
is the `fmt.Errorf` value built by `HSet` when the hash name exists as a
scalar. -/
inductive Err where
  | notOpen
  | notFound
  | typeConflict (key : String)
  deriving Repr, DecidableEq

/-- Modelled from the spec: backends "return a value/error pair per
operation" through the result wrappers of the `jkv` package (not present in
the sources); `jkv.NewStringCmd v e` builds the pair, `Val`/`Err` project
it. -/
structure StringCmd where
  val : String
  err : Option Err
  deriving Repr, DecidableEq

/-- Modelled from the spec: the `jkv.IntCmd` integer/error result pair. -/
structure IntCmd where
  val : Int
  err : Option Err
  deriving Repr, DecidableEq

/-- Modelled from the spec: the `jkv.StatusCmd` status-string/error pair. -/
structure StatusCmd where
  val : String
  err : Option Err
  deriving Repr, DecidableEq

/-- Modelled from the spec: the `jkv.BoolCmd` boolean/error pair. -/
structure BoolCmd where
  val : Bool
  err : Option Err
  deriving Repr, DecidableEq

/-- Modelled from the spec: the `jkv.StringSliceCmd` string-list/error pair. -/
structure StringSliceCmd where
  val : List String
  err : Option Err
  deriving Repr, DecidableEq

/-- First-occurrence lookup in a directory listing (an association list). -/
def alookup {α : Type} (l : List (String × α)) (k : String) : Option α :=
  match l with
  | [] => none
  | (k2, v) :: rest => if k2 = k then some v else alookup rest k

/-- Overwrite the first entry named `k`, or append one: the effect of writing
the file `k` into a directory. -/
def aset {α : Type} (l : List (String × α)) (k : String) (v : α) : List (String × α) :=
  match l with
  | [] => [(k, v)]
  | (k2, v2) :: rest => if k2 = k then (k, v) :: rest else (k2, v2) :: aset rest k v

/-- Drop the first entry named `k`: the effect of removing the file `k` from a
directory. -/
def aremove {α : Type} (l : List (String × α)) (k : String) : List (String × α) :=
  match l with
  | [] => []
  | (k2, v2) :: rest => if k2 = k then rest else (k2, v2) :: aremove rest k

/-- The fragment of the filesystem the backend touches: the listing of
`R/scalars` (file name to contents) and of `R/hashes` (hash name to its own
listing of field files).  `none` means the directory itself is missing. -/
structure FileSys where
  scalarsDir : Option (List (String × String))
  hashesDir : Option (List (String × List (String × String)))
  deriving Repr, DecidableEq

/-- Models success of `os.Stat (R/scalars/key)`: the directory exists and holds the file. -/
def scalarExists (fs : FileSys) (key : String) : Bool :=
  match fs.scalarsDir with
  | none => false
  | some l => (alookup l key).isSome

/-- Models success of `os.Stat (R/hashes/hash)`: the hash directory exists. -/
def hashExists (fs : FileSys) (hash : String) : Bool :=
  match fs.hashesDir with
  | none => false
  | some l => (alookup l hash).isSome

/-- Models success of `os.Stat (R/hashes/hash/key)`: the field file exists. -/
def statHashField (fs : FileSys) (hash key : String) : Bool :=
  match fs.hashesDir with
  | none => false
  | some l =>
    match alookup l hash with
    | none => false
    | some fields => (alookup fields key).isSome

/-- Models `os.ReadFile (R/scalars/key)`. -/
def readScalar (fs : FileSys) (key : String) : Except Err String :=
  match fs.scalarsDir with
  | none => .error .notFound
  | some l =>
    match alookup l key with
    | none => .error .notFound
    | some v => .ok v

/-- Models `os.WriteFile (R/scalars/key, value)`: fails when the parent directory is
missing, otherwise creates or overwrites the file. -/
def writeScalar (fs : FileSys) (key value : String) : Except Err FileSys :=
  match fs.scalarsDir with
  | none => .error .notFound
  | some l => .ok { fs with scalarsDir := some (aset l key value) }

/-- Models `os.Remove (R/scalars/key)`: fails when the file is missing. -/
def removeScalar (fs : FileSys) (key : String) : Except Err FileSys :=
  match fs.scalarsDir with
  | none => .error .notFound
  | some l =>
    if (alookup l key).isSome then .ok { fs with scalarsDir := some (aremove l key) }
    else .error .notFound

/-- Models `os.ReadFile (R/hashes/hash/key)`. -/
def readHashField (fs : FileSys) (hash key : String) : Except Err String :=
  match fs.hashesDir with
  | none => .error .notFound
  | some l =>
    match alookup l hash with
    | none => .error .notFound
    | some fields =>
      match alookup fields key with
      | none => .error .notFound
      | some v => .ok v

/-- Models `os.MkdirAll (R/hashes/hash)`: creates `R/hashes` and the hash directory
when absent, leaves them alone otherwise. -/
def mkdirHashDir (fs : FileSys) (hash : String) : FileSys :=
  match fs.hashesDir with
  | none => { fs with hashesDir := some [(hash, [])] }
  | some l =>
    match alookup l hash with
    | none => { fs with hashesDir := some (aset l hash []) }
    | some _ => fs

/-- Models `os.WriteFile (R/hashes/hash/key, value)`: fails when the hash directory
is missing. -/
def writeHashField (fs : FileSys) (hash key value : String) : Except Err FileSys :=
  match fs.hashesDir with
  | none => .error .notFound
  | some l =>
    match alookup l hash with
    | none => .error .notFound
    | some fields => .ok { fs with hashesDir := some (aset l hash (aset fields key value)) }

/-- Models `os.Remove (R/hashes/hash/key)`: fails when the field file is missing. -/
def removeHashField (fs : FileSys) (hash key : String) : Except Err FileSys :=
  match fs.hashesDir with
  | none => .error .notFound
  | some l =>
    match alookup l hash with
    | none => .error .notFound
    | some fields =>
      if (alookup fields key).isSome then
        .ok { fs with hashesDir := some (aset l hash (aremove fields key)) }
      else .error .notFound

/-- Models `os.ReadDir (R/hashes/hash)`: the field names, or an error when the hash
directory is missing. -/
def readHashDir (fs : FileSys) (hash : String) : Except Err (List String) :=
  match fs.hashesDir with
  | none => .error .notFound
  | some l =>
    match alookup l hash with
    | none => .error .notFound
    | some fields => .ok (fields.map Prod.fst)

/-- Models `os.RemoveAll (R/hashes/hash)`: never fails; removes the directory when
present. -/
def removeHashDirAll (fs : FileSys) (hash : String) : FileSys :=
  match fs.hashesDir with
  | none => fs
  | some l => { fs with hashesDir := some (aremove l hash) }

/-- The `fs.Client` of `store/fs/fs.go`: a root directory and the open flag. -/
structure Client where
  DBDir : String
  IsOpen : Bool
  deriving Repr, DecidableEq

namespace Fs

/-- Embeds `Client.Open`: creates `R/scalars` and `R/hashes` (recursively, never
failing in this model) and sets the open flag. -/
def Open (c : Client) (fs : FileSys) : (Client × FileSys) × Option Err :=
  ((⟨c.DBDir, true⟩,
    ⟨some (fs.scalarsDir.getD []), some (fs.hashesDir.getD [])⟩), none)

/-- Embeds `Client.Close`: just drops the open flag. -/
def Close (c : Client) : Client :=
  ⟨c.DBDir, false⟩

/-- Embeds `Client.FlushDB`: `os.RemoveAll (j.DBDir)` — removes the whole root tree,
touching neither the client record nor its open flag, and recreates nothing. -/
def FlushDB (c : Client) (fs : FileSys) : Client × FileSys :=
  (c, ⟨none, none⟩)

/-- Embeds `Client.Get`: reads `R/scalars/key` when open, else the not-open error.
`jkv.NewStringCmd (string data) err` carries the empty string on a failed
read. -/
def Get (c : Client) (fs : FileSys) (key : String) : StringCmd :=
  if c.IsOpen then
    match readScalar fs key with
    | .ok data => ⟨data, none⟩
    | .error e => ⟨"", some e⟩
  else ⟨"", some .notOpen⟩

/-- Embeds `Client.Set`: writes `R/scalars/key` when open; the status value is the
literal OK string even when the write itself fails, as in the source. -/
def Set (c : Client) (fs : FileSys) (key value : String) : StatusCmd × FileSys :=
  if c.IsOpen then
    match writeScalar fs key value with
    | .ok fs2 => (⟨"OK", none⟩, fs2)
    | .error e => (⟨"OK", some e⟩, fs)
  else (⟨"", some .notOpen⟩, fs)

/-- A Go computation that can hit a runtime fault (index out of range on an
empty variadic argument list). -/
inductive Res (α : Type) where
  | faulted
  | ok (val : α)
  deriving Repr, DecidableEq

/-- Embeds `Client.Del`: removes only `keys[0]` (the loop of the source is a todo) yet
reports `len keys` as the count; `keys[0]` on an empty list is a runtime
fault. -/
def Del (c : Client) (fs : FileSys) (keys : List String) : Res (IntCmd × FileSys) :=
  if c.IsOpen then
    match keys with
    | [] => .faulted
    | k :: _ =>
      match removeScalar fs k with
      | .ok fs2 => .ok (⟨Int.ofNat keys.length, none⟩, fs2)
      | .error e => .ok (⟨Int.ofNat keys.length, some e⟩, fs)
  else .ok (⟨0, some .notOpen⟩, fs)

/-- Embeds `Client.Keys`: no open check in the source — reads both directory
listings, failing as soon as one is missing. -/
def Keys (c : Client) (fs : FileSys) (pattern : String) : StringSliceCmd :=
  match fs.scalarsDir with
  | none => ⟨[], some .notFound⟩
  | some sl =>
    match fs.hashesDir with
    | none => ⟨[], some .notFound⟩
    | some hl => ⟨sl.map Prod.fst ++ hl.map Prod.fst, none⟩

/-- Embeds `Client.Exists`: stats `R/scalars/keys[0]` when open; when closed it
returns count 0 with a nil error (not the not-open error). -/
def Exists (c : Client) (fs : FileSys) (keys : List String) : Res IntCmd :=
  if c.IsOpen then
    match keys with
    | [] => .faulted
    | k :: _ =>
      if scalarExists fs k then .ok ⟨1, none⟩ else .ok ⟨0, some .notFound⟩
  else .ok ⟨0, none⟩

/-- Embeds `Client.HGet`. -/
def HGet (c : Client) (fs : FileSys) (hash key : String) : StringCmd :=
  if c.IsOpen then
    match readHashField fs hash key with
    | .ok data => ⟨data, none⟩
    | .error e => ⟨"", some e⟩
  else ⟨"", some .notOpen⟩

/-- Embeds `Client.HSet`, faithfully including its two slips: the scalar-existence
probe error (`ENOENT` exactly when no scalar named `hash` exists) is
returned as the own failure of HSet, so the mkdir/write path only runs when the
probe finds nothing wrong with both sides — which never happens — and the
successful-write result `jkv.NewIntCmd 1 nil` is discarded, falling through
to the final not-open return. -/
def HSet (c : Client) (fs : FileSys) (hash key value : String) : Res (IntCmd × FileSys) :=
  if c.IsOpen then
    match Exists c fs [hash] with
    | .faulted => .faulted
    | .ok rec =>
      if rec.err.isSome then .ok (⟨0, rec.err⟩, fs)
      else if rec.val > 0 then .ok (⟨0, some (.typeConflict hash)⟩, fs)
      else
        match writeHashField (mkdirHashDir fs hash) hash key value with
        | .error _ => .ok (⟨0, rec.err⟩, mkdirHashDir fs hash)
        | .ok fs2 => .ok (⟨0, some .notOpen⟩, fs2)
  else .ok (⟨0, some .notOpen⟩, fs)

/-- Embeds `Client.HDel`: removes the field file, lists what remains, removes the
hash directory when the listing is empty, and reports the remaining count. -/
def HDel (c : Client) (fs : FileSys) (hash key : String) : IntCmd × FileSys :=
  if c.IsOpen then
    match removeHashField fs hash key with
    | .error e => (⟨0, some e⟩, fs)
    | .ok fs1 =>
      match readHashDir fs1 hash with
      | .error e => (⟨0, some e⟩, fs1)
      | .ok entries =>
        if entries.length = 0 then (⟨0, none⟩, removeHashDirAll fs1 hash)
        else (⟨Int.ofNat entries.length, none⟩, fs1)
  else (⟨0, some .notOpen⟩, fs)

/-- Embeds `Client.HKeys`: stats the hash directory, then lists it. -/
def HKeys (c : Client) (fs : FileSys) (hash : String) : StringSliceCmd :=
  if c.IsOpen then
    match fs.hashesDir with
    | none => ⟨[], some .notFound⟩
    | some l =>
      match alookup l hash with
      | none => ⟨[], some .notFound⟩
      | some fields => ⟨fields.map Prod.fst, none⟩
  else ⟨[], some .notOpen⟩

/-- Embeds `Client.HExists`. -/
def HExists (c : Client) (fs : FileSys) (hash key : String) : BoolCmd :=
  if c.IsOpen then
    if statHashField fs hash key then ⟨true, none⟩ else ⟨false, some .notFound⟩
  else ⟨false, some .notOpen⟩

/-- Embeds `Client.Ping`. -/
def Ping (c : Client) : StatusCmd :=
  if c.IsOpen then ⟨"PONG", none⟩ else ⟨"", some .notOpen⟩

end Fs

/-!
The command dispatcher `ProcessCmd` of `jkv-cli/main.go` (its control flow for
the filesystem backend is identical in the second, unnamed copy of `main.go`).
The backend it talks to (`fs.JKV_DB`) is abstracted as an oracle of replies,
and the observable behaviour of the dispatcher is the list of lines it prints, the
backend calls it makes in order, and whether it returns normally or dies in a
runtime panic.
-/

/-- Embeds `strings.ToUpper`, character by character (the verbs are ASCII). -/
def toUpperStr (s : String) : String :=
  String.mk (s.data.map Char.toUpper)

/-- One backend invocation the dispatcher can make, with its arguments. -/
inductive Call where
  | flushdb
  | hget (hash field : String)
  | existsQ (key : String)
  | hset (hash field value : String)
  | hdel (hash field : String)
  | hkeys (hash : String)
  | hexists (hash field : String)
  | get (key : String)
  | set (key value : String)
  | del (key : String)
  | keys (pattern : String)
  deriving Repr, DecidableEq

/-- Modelled from the spec: the filesystem backend seen by the dispatcher
(`fs.JKV_DB`, whose implementation is not among the sources) — an oracle
giving the reply of each contract method, errors being `none` or a message, as the
Backend Contract of the spec describes. -/
structure Backend where
  existsQ : String → Bool
  hget : String → String → String × Option String
  hset : String → String → String → Option String
  hdel : String → String → Option String
  hkeys : String → List String × Option String
  hexists : String → String → Bool
  get : String → String × Option String
  set : String → String → Option String
  del : String → Option String
  keys : String → List String × Option String

/-- The result of the single `os.Stdin.Read` a stream-mode SET performs: the
bytes it returned and the error value alongside them. -/
inductive ReadErr where
  | eof
  | other (msg : String)
  deriving Repr, DecidableEq

/-- The bound-input read outcome for stream-mode SET. -/
structure StdinRead where
  data : List Char
  err : Option ReadErr
  deriving Repr, DecidableEq

/-- What one dispatched command printed and which backend calls it made. -/
structure RunLog where
  lines : List String
  calls : List Call
  deriving Repr, DecidableEq

/-- How a Go panic killed the process: an out-of-range token index, the
`panic (err.Error ())` on a failed stream read, or calling `Error ()` on a
nil error (the zero-byte read with a nil error). -/
inductive PanicKind where
  | indexOutOfRange (i : Nat)
  | readFailure (msg : String)
  | nilErrorDeref
  deriving Repr, DecidableEq

/-- A dispatched command either returns to the read loop or panics,
terminating the process; either way it leaves the log so far. -/
inductive Outcome where
  | normal (log : RunLog)
  | fatal (log : RunLog) (why : PanicKind)
  deriving Repr, DecidableEq

/-- The arity-error reply string, e.g. for the verb name set. -/
def arityErr (verb : String) : String :=
  ("(error) ERR wrong number of arguments for \x27") ++ verb ++ ("\x27 command")

/-- The WRONGTYPE reply HSET gives when the target name exists as a scalar. -/
def wrongTypeMsg : String :=
  "(error) WRONGTYPE Operation against a key holding the wrong kind of value"

/-- The enumerated rendering of a list reply: one numbered, quoted line per
element. -/
def listLines (vs : List String) : List String :=
  vs.enum.map (fun p => toString (p.1 + 1) ++ (") \x22") ++ p.2 ++ ("\x22"))

/-- The field/value loop of the HSET branch: `for n = 0; n < limit; n++`
with `limit = (len tokens - 1) / 2`, taking `tokens [2 + 2 n]` as field and
`tokens [2 + 2 n + 1]` as value, stopping at the first backend error (printed
verbatim) and otherwise printing the count of pairs processed. -/
def hsetLoop (db : Backend) (ts : List String) (hash : String) :
    Nat → Nat → RunLog → Outcome
  | 0, n, acc => .normal ⟨acc.lines ++ [("(integer) ") ++ toString n], acc.calls⟩
  | rem + 1, n, acc =>
    match ts[2 + 2 * n]?, ts[2 + 2 * n + 1]? with
    | some key, some value =>
      match db.hset hash key value with
      | some msg => .normal ⟨acc.lines ++ [msg], acc.calls ++ [.hset hash key value]⟩
      | none => hsetLoop db ts hash rem (n + 1) ⟨acc.lines, acc.calls ++ [.hset hash key value]⟩
    | _, _ => .fatal acc (.indexOutOfRange (2 + 2 * n))

/-- Embeds `ProcessCmd` for the filesystem backend, acting on the already-tokenized
line (`tokens = strings.Fields cmd`, see `fields` below), the `-x` flag, and
the one bound-input read stream-mode SET may perform.  Faithful to the
verb switch of the source, per-verb length guards, token indexing (an out-of-range
index is a fatal panic, as in Go) and reply strings, including the stray
add-x-support line the HSET branch always prints first. -/
def ProcessCmd (db : Backend) (tokens : List String) (optX : Bool) (sr : StdinRead) : Outcome :=
  match tokens with
  | [] => .normal ⟨[], []⟩
  | t0 :: _ =>
    if toUpperStr t0 = "FLUSHDB" then
      if tokens.length = 1 then .normal ⟨["OK"], [.flushdb]⟩
      else .normal ⟨["(error) ERR syntax error"], []⟩
    else if toUpperStr t0 = "HGET" then
      if tokens.length = 3 then
        match tokens[1]?, tokens[2]? with
        | some a1, some a2 =>
          let r := db.hget a1 a2
          if r.2.isSome then .normal ⟨["(nil)"], [.hget a1 a2]⟩
          else .normal ⟨[("\x22") ++ r.1 ++ ("\x22")], [.hget a1 a2]⟩
        | _, _ => .fatal ⟨[], []⟩ (.indexOutOfRange 1)
      else .normal ⟨["(nil)"], []⟩
    else if toUpperStr t0 = "HSET" then
      if tokens.length > 2 then
        match tokens[1]? with
        | some hash =>
          if db.existsQ hash then
            .normal ⟨["add -x support", wrongTypeMsg], [.existsQ hash]⟩
          else if tokens.length ≥ 4 ∧ (tokens.length - 2) % 2 = 0 then
            hsetLoop db tokens hash ((tokens.length - 1) / 2) 0
              ⟨["add -x support"], [.existsQ hash]⟩
          else .normal ⟨["add -x support", arityErr ("hset")], [.existsQ hash]⟩
        | none => .fatal ⟨["add -x support"], []⟩ (.indexOutOfRange 1)
      else .normal ⟨["add -x support", "(nil)"], []⟩
    else if toUpperStr t0 = "HDEL" then
      if tokens.length = 2 then
        match tokens[1]?, tokens[2]? with
        | some a1, some a2 =>
          match db.hdel a1 a2 with
          | some _ => .normal ⟨["(nil)"], [.hdel a1 a2]⟩
          | none => .normal ⟨[("\x22\x22")], [.hdel a1 a2]⟩
        | _, _ => .fatal ⟨[], []⟩ (.indexOutOfRange 2)
      else .normal ⟨["(nil)"], []⟩
    else if toUpperStr t0 = "HKEYS" then
      if tokens.length = 2 then
        match tokens[1]? with
        | some a1 =>
          let r := db.hkeys a1
          if r.2.isSome then .normal ⟨["(nil)"], [.hkeys a1]⟩
          else .normal ⟨listLines r.1, [.hkeys a1]⟩
        | none => .fatal ⟨[], []⟩ (.indexOutOfRange 1)
      else .normal ⟨[arityErr ("hkeys")], []⟩
    else if toUpperStr t0 = "HEXISTS" then
      if tokens.length = 3 then
        match tokens[1]?, tokens[2]? with
        | some a1, some a2 =>
          if db.hexists a1 a2 then .normal ⟨["(integer) 1"], [.hexists a1 a2]⟩
          else .normal ⟨["(integer) 0"], [.hexists a1 a2]⟩
        | _, _ => .fatal ⟨[], []⟩ (.indexOutOfRange 1)
      else .normal ⟨[arityErr ("exists")], []⟩
    else if toUpperStr t0 = "GET" then
      if tokens.length = 2 then
        match tokens[1]? with
        | some a1 =>
          let r := db.get a1
          if r.2.isSome then .normal ⟨["(nil)"], [.get a1]⟩
          else .normal ⟨[("\x22") ++ r.1 ++ ("\x22")], [.get a1]⟩
        | none => .fatal ⟨[], []⟩ (.indexOutOfRange 1)
      else .normal ⟨["(nil)"], []⟩
    else if toUpperStr t0 = "SET" then
      if optX then
        if tokens.length = 2 then
          if sr.data.length = 0 then
            match sr.err with
            | some .eof => .normal ⟨[], []⟩
            | some (.other msg) => .fatal ⟨[], []⟩ (.readFailure msg)
            | none => .fatal ⟨[], []⟩ .nilErrorDeref
          else
            match tokens[1]? with
            | some k =>
              let v := String.mk (sr.data.take (sr.data.length - 1))
              match db.set k v with
              | some _ => .normal ⟨["(nil)"], [.set k v]⟩
              | none => .normal ⟨["OK"], [.set k v]⟩
            | none => .fatal ⟨[], []⟩ (.indexOutOfRange 1)
        else .normal ⟨[arityErr ("set")], []⟩
      else
        if tokens.length = 3 then
          match tokens[1]?, tokens[2]? with
          | some k, some v =>
            match db.set k v with
            | some _ => .normal ⟨["(nil)"], [.set k v]⟩
            | none => .normal ⟨["OK"], [.set k v]⟩
          | _, _ => .fatal ⟨[], []⟩ (.indexOutOfRange 1)
        else .normal ⟨[arityErr ("set")], []⟩
    else if toUpperStr t0 = "DEL" then
      if tokens.length = 2 then
        match tokens[1]? with
        | some k =>
          match db.del k with
          | some _ => .normal ⟨["(nil)"], [.del k]⟩
          | none => .normal ⟨[("\x22\x22")], [.del k]⟩
        | none => .fatal ⟨[], []⟩ (.indexOutOfRange 1)
      else .normal ⟨["(nil)"], []⟩
    else if toUpperStr t0 = "KEYS" then
      if tokens.length = 2 then
        match tokens[1]? with
        | some p =>
          let r := db.keys p
          if r.2.isSome then .normal ⟨["(nil)"], [.keys p]⟩
          else .normal ⟨listLines r.1, [.keys p]⟩
        | none => .fatal ⟨[], []⟩ (.indexOutOfRange 1)
      else .normal ⟨[arityErr ("keys")], []⟩
    else if toUpperStr t0 = "EXISTS" then
      if tokens.length = 2 then
        match tokens[1]? with
        | some k =>
          if db.existsQ k then .normal ⟨["(integer) 1"], [.existsQ k]⟩
          else .normal ⟨["(integer) 0"], [.existsQ k]⟩
        | none => .fatal ⟨[], []⟩ (.indexOutOfRange 1)
      else .normal ⟨[arityErr ("exists")], []⟩
    else
      .normal ⟨[("(error) ERR unknown command \x27") ++ t0 ++
                ("\x27, with args beginning with:")], []⟩

/-- Helper for `fields`: scans the characters, accumulating the current word
reversed. -/
def fieldsAux : List Char → List Char → List String
  | [], acc => if acc = [] then [] else [String.mk acc.reverse]
  | c :: rest, acc =>
    if c.isWhitespace then
      if acc = [] then fieldsAux rest []
      else String.mk acc.reverse :: fieldsAux rest []
    else fieldsAux rest (c :: acc)

/-- Embeds `strings.Fields`: the whitespace-separated words of the line, no empty
pieces. -/
def fields (s : String) : List String :=
  fieldsAux s.data []

/-- Runs `ProcessCmd` on a raw input line. -/
def ProcessCmdLine (db : Backend) (cmd : String) (optX : Bool) (sr : StdinRead) : Outcome :=
  ProcessCmd db (fields cmd) optX sr

/-- A concrete backend oracle used for closed test evaluations: every lookup
is empty and every mutation succeeds. -/
def testBackend : Backend where
  existsQ := fun _ => false
  hget := fun _ _ => ("", none)
  hset := fun _ _ _ => none
  hdel := fun _ _ => none
  hkeys := fun _ => ([], none)
  hexists := fun _ _ => false
  get := fun _ => ("", none)
  set := fun _ _ => none
  del := fun _ => none
  keys := fun _ => ([], none)

/-! Association-list lemmas used by the claim proofs. -/

theorem alookup_aset_self {α : Type} (l : List (String × α)) (k : String) (v : α) :
    alookup (aset l k v) k = some v := by
  induction l with
  | nil => simp [aset, alookup]
  | cons hd tl ih =>
    obtain ⟨k2, v2⟩ := hd
    by_cases h : k2 = k
    · simp [aset, h, alookup]
    · simp [aset, h, alookup, ih]

theorem alookup_aremove_ne {α : Type} (l : List (String × α)) (k k2 : String) (h : k2 ≠ k) :
    alookup (aremove l k) k2 = alookup l k2 := by
  induction l with
  | nil => simp [aremove]
  | cons hd tl ih =>
    obtain ⟨k3, v3⟩ := hd
    by_cases h3 : k3 = k
    · have hne : ¬ k3 = k2 := by rw [h3]; exact fun hc => h hc.symm
      have hne2 : ¬ k = k2 := fun hc => h hc.symm
      simp [aremove, alookup, h3, hne, hne2]
    · simp [aremove, alookup, h3, ih]

theorem alookup_eq_none_of_not_mem {α : Type} (l : List (String × α)) (k : String)
    (h : k ∉ l.map Prod.fst) : alookup l k = none := by
  induction l with
  | nil => simp [alookup]
  | cons hd tl ih =>
    obtain ⟨k2, v2⟩ := hd
    simp only [List.map_cons, List.mem_cons, not_or] at h
    have hne : ¬ k2 = k := fun hc => h.1 hc.symm
    simp [alookup, hne, ih h.2]

theorem alookup_aremove_self {α : Type} (l : List (String × α)) (k : String)
    (h : (l.map Prod.fst).Nodup) : alookup (aremove l k) k = none := by
  induction l with
  | nil => simp [aremove, alookup]
  | cons hd tl ih =>
    obtain ⟨k2, v2⟩ := hd
    simp only [List.map_cons, List.nodup_cons] at h
    by_cases h2 : k2 = k
    · have hnm : k ∉ tl.map Prod.fst := h2 ▸ h.1
      simp [aremove, h2, alookup_eq_none_of_not_mem tl k hnm]
    · simp [aremove, h2, alookup, ih h.2]

theorem aset_map_fst {α : Type} (l : List (String × α)) (k : String) (v : α)
    (h : (alookup l k).isSome = true) :
    (aset l k v).map Prod.fst = l.map Prod.fst := by
  induction l with
  | nil => simp [alookup] at h
  | cons hd tl ih =>
    obtain ⟨k2, v2⟩ := hd
    by_cases h2 : k2 = k
    · subst h2
      simp [aset]
    · simp only [alookup, if_neg h2] at h
      simp [aset, h2, ih h]

/-! The claims. -/

/-- C1: the claim reads: with the store open, `HSet hash field value` fails
with a TypeConflict error and writes nothing when a scalar named `hash`
exists, and otherwise creates the hash directory if absent, writes the
value of the field and returns without error.  The TypeConflict half holds, but
the otherwise half is a code bug: the scalar-existence probe (`Exists`)
returns the `ENOENT` stat error precisely when no scalar of that name
exists, and `HSet` forwards any probe error as its own failure — so on an
open store with no scalar named h it returns the not-found error, creates no
directory and writes no file (and its unreachable success path would still
return a not-open error, its `jkv.NewIntCmd 1 nil` being built and dropped
without a `return`).  This theorem evaluates the code at the failing input:
an open store whose namespaces are empty. -/
theorem hset_open_no_scalar_writes_nothing :
    Fs.HSet ⟨"jkv_db", true⟩ ⟨some [], some []⟩ "h" "f" "v"
      = .ok (⟨0, some Err.notFound⟩, ⟨some [], some []⟩) := rfl

/-- C9: `FlushDB` removes the whole root directory tree — every scalar and
every hash is gone — recreates no directory structure, and leaves the client
record, open/closed flag included, unchanged. -/
theorem flushdb_removes_tree_keeps_flag (c : Client) (fs : FileSys) (k h : String) :
    (Fs.FlushDB c fs).1 = c ∧
    (Fs.FlushDB c fs).2.scalarsDir = none ∧
    (Fs.FlushDB c fs).2.hashesDir = none ∧
    scalarExists (Fs.FlushDB c fs).2 k = false ∧
    hashExists (Fs.FlushDB c fs).2 h = false :=
  ⟨rfl, rfl, rfl, rfl, rfl⟩

/-- C6: on an open store (open flag set and the scalars directory in place,
as `Open` establishes), `Set k v` succeeds and a following `Get k` returns
exactly `v` with no error. -/
theorem set_then_get_roundtrip (c : Client) (fs : FileSys) (k v : String)
    (hopen : c.IsOpen = true) (hdir : fs.scalarsDir.isSome = true) :
    (Fs.Set c fs k v).1.err = none ∧
    (Fs.Get c (Fs.Set c fs k v).2 k).err = none ∧
    (Fs.Get c (Fs.Set c fs k v).2 k).val = v := by
  obtain ⟨sl, hsl⟩ := Option.isSome_iff_exists.mp hdir
  simp [Fs.Set, Fs.Get, writeScalar, readScalar, hopen, hsl, alookup_aset_self]

/-- Witness for C6 at a concrete open store. -/
theorem set_then_get_roundtrip_witness :
    (⟨"jkv_db", true⟩ : Client).IsOpen = true ∧
    (FileSys.mk (some []) (some [])).scalarsDir.isSome = true ∧
    ((Fs.Set ⟨"jkv_db", true⟩ ⟨some [], some []⟩ "a" "x").1.err = none ∧
     (Fs.Get ⟨"jkv_db", true⟩ (Fs.Set ⟨"jkv_db", true⟩ ⟨some [], some []⟩ "a" "x").2 "a").err
       = none ∧
     (Fs.Get ⟨"jkv_db", true⟩ (Fs.Set ⟨"jkv_db", true⟩ ⟨some [], some []⟩ "a" "x").2 "a").val
       = "x") :=
  ⟨rfl, rfl, set_then_get_roundtrip ⟨"jkv_db", true⟩ ⟨some [], some []⟩ "a" "x" rfl rfl⟩

/-- C5 counterexample: the claim says `Del keys...` removes every scalar key
in the argument list; on the open store holding scalars a and b,
`Del [a, b]` leaves b in place (and still reports count 2), because the
source removes only `keys[0]` (its loop is a `todo`). -/
theorem del_leaves_second_key :
    Fs.Del ⟨"jkv_db", true⟩ ⟨some [("a", "1"), ("b", "2")], some []⟩ ["a", "b"]
      = .ok (⟨2, none⟩, ⟨some [("b", "2")], some []⟩) ∧
    scalarExists (FileSys.mk (some [("b", "2")]) (some [])) "b" = true :=
  ⟨rfl, rfl⟩

/-- C5 amended: with the store open and the first key present, `Del` removes
only the first key of the argument list and returns the length of the whole
list as its count; the binding of every other key is untouched. -/
theorem del_removes_only_first_key (c : Client) (fs : FileSys)
    (sl : List (String × String)) (k : String) (rest : List String)
    (hopen : c.IsOpen = true) (hsl : fs.scalarsDir = some sl)
    (hnodup : (sl.map Prod.fst).Nodup) (hk : (alookup sl k).isSome = true) :
    Fs.Del c fs (k :: rest)
      = .ok (⟨Int.ofNat (rest.length + 1), none⟩,
             { fs with scalarsDir := some (aremove sl k) }) ∧
    alookup (aremove sl k) k = none ∧
    (∀ k2, k2 ≠ k → alookup (aremove sl k) k2 = alookup sl k2) := by
  refine ⟨?_, alookup_aremove_self sl k hnodup,
    fun k2 h2 => alookup_aremove_ne sl k k2 h2⟩
  simp [Fs.Del, removeScalar, hopen, hsl, hk]

/-- Witness for the amended C5 at a concrete two-scalar store. -/
theorem del_removes_only_first_key_witness :
    (⟨"jkv_db", true⟩ : Client).IsOpen = true ∧
    (FileSys.mk (some [("a", "1"), ("b", "2")]) (some [])).scalarsDir
      = some [("a", "1"), ("b", "2")] ∧
    (([("a", "1"), ("b", "2")].map (Prod.fst (α := String) (β := String))).Nodup) ∧
    (alookup [("a", "1"), ("b", "2")] "a").isSome = true ∧
    Fs.Del ⟨"jkv_db", true⟩ ⟨some [("a", "1"), ("b", "2")], some []⟩ ["a", "b"]
      = .ok (⟨Int.ofNat 2, none⟩, ⟨some (aremove [("a", "1"), ("b", "2")] "a"), some []⟩) :=
  ⟨rfl, rfl, by decide, rfl,
    (del_removes_only_first_key ⟨"jkv_db", true⟩ ⟨some [("a", "1"), ("b", "2")], some []⟩
      [("a", "1"), ("b", "2")] "a" ["b"] rfl rfl (by decide) rfl).1⟩

/-- C2 counterexample: the claim says every contract operation on a closed
store — `Keys` among them — fails with a not-open error and serves no data.
But `Keys` never consults the open flag: on a closed store whose directories
survive (`Close` only drops the flag), it serves the listing with no error. -/
theorem keys_closed_serves_data :
    Fs.Keys ⟨"jkv_db", false⟩ ⟨some [("a", "1")], some []⟩ "*" = ⟨["a"], none⟩ := rfl

/-- C2 amended: on a closed store, `Get`, `Set`, `Del`, `HGet`, `HSet`,
`HDel`, `HKeys` and `HExists` fail with the not-open error and leave the
filesystem unchanged; but `Exists` returns count 0 with a nil error instead
of a not-open failure, `Keys` ignores the flag entirely (it behaves exactly
as on an open store), and `FlushDB` ignores the flag and still destroys the
whole tree. -/
theorem closed_store_behavior (c : Client) (fs : FileSys) (h : c.IsOpen = false) :
    (∀ k, Fs.Get c fs k = ⟨"", some .notOpen⟩) ∧
    (∀ k v, Fs.Set c fs k v = (⟨"", some .notOpen⟩, fs)) ∧
    (∀ ks, Fs.Del c fs ks = .ok (⟨0, some .notOpen⟩, fs)) ∧
    (∀ h2 f, Fs.HGet c fs h2 f = ⟨"", some .notOpen⟩) ∧
    (∀ h2 f v, Fs.HSet c fs h2 f v = .ok (⟨0, some .notOpen⟩, fs)) ∧
    (∀ h2 f, Fs.HDel c fs h2 f = (⟨0, some .notOpen⟩, fs)) ∧
    (∀ h2, Fs.HKeys c fs h2 = ⟨[], some .notOpen⟩) ∧
    (∀ h2 f, Fs.HExists c fs h2 f = ⟨false, some .notOpen⟩) ∧
    (∀ ks, Fs.Exists c fs ks = .ok ⟨0, none⟩) ∧
    (∀ p, Fs.Keys c fs p = Fs.Keys ⟨c.DBDir, true⟩ fs p) ∧
    Fs.FlushDB c fs = (c, ⟨none, none⟩) := by
  refine ⟨?_, ?_, ?_, ?_, ?_, ?_, ?_, ?_, ?_, ?_, rfl⟩ <;> intros <;>
    simp [Fs.Get, Fs.Set, Fs.Del, Fs.HGet, Fs.HSet, Fs.HDel, Fs.HKeys, Fs.HExists,
      Fs.Exists, Fs.Keys, h]

/-- Witness for the amended C2 at a concrete closed store. -/
theorem closed_store_behavior_witness :
    (⟨"jkv_db", false⟩ : Client).IsOpen = false ∧
    Fs.Get ⟨"jkv_db", false⟩ ⟨some [], some []⟩ "a" = ⟨"", some Err.notOpen⟩ :=
  ⟨rfl, (closed_store_behavior ⟨"jkv_db", false⟩ ⟨some [], some []⟩ rfl).1 "a"⟩

/-- C7: with the store open and the field present in the hash, `HDel`
removes the field, returns the number of fields remaining after the
operation, and removes the hash directory entirely exactly when no field
remains — so the hash still exists afterwards iff the deleted field was not
the last one.  (Directory listings have no duplicate names, hence the two
Nodup hypotheses.) -/
theorem hdel_removes_field_and_empty_hash (c : Client) (fs : FileSys)
    (hl : List (String × List (String × String))) (flds : List (String × String))
    (hash field : String)
    (hopen : c.IsOpen = true) (hdir : fs.hashesDir = some hl)
    (hhash : alookup hl hash = some flds)
    (hnodupH : (hl.map Prod.fst).Nodup) (hnodupF : (flds.map Prod.fst).Nodup)
    (hfield : (alookup flds field).isSome = true) :
    (Fs.HDel c fs hash field).1.err = none ∧
    (Fs.HDel c fs hash field).1.val = Int.ofNat (aremove flds field).length ∧
    statHashField (Fs.HDel c fs hash field).2 hash field = false ∧
    (hashExists (Fs.HDel c fs hash field).2 hash = true ↔ aremove flds field ≠ []) := by
  have hX := alookup_aset_self hl hash (aremove flds field)
  have hmap : (aset hl hash (aremove flds field)).map Prod.fst = hl.map Prod.fst :=
    aset_map_fst hl hash _ (by simp [hhash])
  by_cases hempty : aremove flds field = []
  · rw [hempty] at hX hmap
    have hnodup2 : ((aset hl hash ([] : List (String × String))).map Prod.fst).Nodup := by
      rw [hmap]; exact hnodupH
    have hrem : alookup (aremove (aset hl hash ([] : List (String × String))) hash) hash
        = none := alookup_aremove_self _ hash hnodup2
    simp [Fs.HDel, removeHashField, readHashDir, removeHashDirAll, statHashField, hashExists,
      hopen, hdir, hhash, hfield, hX, hempty, hrem]
  · have hlen : ¬ (aremove flds field).length = 0 := by
      simpa [List.length_eq_zero] using hempty
    have hfnone : alookup (aremove flds field) field = none :=
      alookup_aremove_self flds field hnodupF
    simp [Fs.HDel, removeHashField, readHashDir, statHashField, hashExists,
      hopen, hdir, hhash, hfield, hX, hempty, hlen, hfnone]

/-- Witness for C7: deleting the only field of hash h removes the hash. -/
theorem hdel_removes_field_and_empty_hash_witness :
    (⟨"jkv_db", true⟩ : Client).IsOpen = true ∧
    ((Fs.HDel ⟨"jkv_db", true⟩ ⟨some [], some [("h", [("f", "1")])]⟩ "h" "f").1.err = none ∧
     (Fs.HDel ⟨"jkv_db", true⟩ ⟨some [], some [("h", [("f", "1")])]⟩ "h" "f").1.val
       = Int.ofNat (aremove [("f", "1")] "f").length ∧
     statHashField (Fs.HDel ⟨"jkv_db", true⟩ ⟨some [], some [("h", [("f", "1")])]⟩ "h" "f").2
       "h" "f" = false ∧
     (hashExists (Fs.HDel ⟨"jkv_db", true⟩ ⟨some [], some [("h", [("f", "1")])]⟩ "h" "f").2 "h"
       = true ↔ aremove [("f", "1")] "f" ≠ [])) :=
  ⟨rfl, hdel_removes_field_and_empty_hash ⟨"jkv_db", true⟩
    ⟨some [], some [("h", [("f", "1")])]⟩ [("h", [("f", "1")])] [("f", "1")] "h" "f"
    rfl rfl rfl (by decide) (by decide) rfl⟩

/-- C3: the claim says an input line whose first token upper-cases to HDEL
and which has exactly 2 tokens (the arity its guard checks for) is dispatched
without out-of-bounds token access, reaches the backend hash-delete, and
prints one reply.  The code-level truth: after the `len (tokens) == 2` guard
the branch reads `tokens [2]`, which is out of range — a fatal runtime panic
before any backend call and before any output. -/
theorem hdel_two_tokens_is_fatal (db : Backend) (t0 t1 : String) (optX : Bool)
    (sr : StdinRead) (hv : toUpperStr t0 = "HDEL") :
    ProcessCmd db [t0, t1] optX sr = .fatal ⟨[], []⟩ (.indexOutOfRange 2) := by
  simp [ProcessCmd, hv]

/-- Witness for C3 on the literal two-token line HDEL h. -/
theorem hdel_two_tokens_is_fatal_witness :
    toUpperStr "HDEL" = "HDEL" ∧
    ProcessCmd testBackend ["HDEL", "h"] false ⟨[], none⟩
      = .fatal ⟨[], []⟩ (.indexOutOfRange 2) :=
  ⟨rfl, hdel_two_tokens_is_fatal testBackend "HDEL" "h" false ⟨[], none⟩ rfl⟩

/-- C4 counterexample: the claim says a zero-byte read with a non-end-of-input
error during stream-mode SET is fatal to that single command only and never
terminates the process.  Evaluating the dispatcher on SET k under the x flag
with such a read shows the outcome is a panic — `panic (err.Error ())` — which
terminates the whole process, not just the command. -/
theorem setx_read_error_kills_process :
    ProcessCmd testBackend ["SET", "k"] true ⟨[], some (.other ("disk error"))⟩
      = .fatal ⟨[], []⟩ (.readFailure ("disk error")) := rfl

/-- C4 amended: in stream-mode SET with exactly 2 tokens, a read that returns
zero bytes with an error other than end-of-input makes the dispatcher panic
with the message of that error, terminating the whole process/session (nothing is
printed and no backend call is made first). -/
theorem setx_read_error_fatal (db : Backend) (t0 t1 msg : String) (sr : StdinRead)
    (hv : toUpperStr t0 = "SET") (hdata : sr.data = [])
    (herr : sr.err = some (.other msg)) :
    ProcessCmd db [t0, t1] true sr = .fatal ⟨[], []⟩ (.readFailure msg) := by
  simp [ProcessCmd, hv, hdata, herr]

/-- Witness for the amended C4. -/
theorem setx_read_error_fatal_witness :
    toUpperStr "SET" = "SET" ∧
    ProcessCmd testBackend ["SET", "k"] true ⟨[], some (.other ("boom"))⟩
      = .fatal ⟨[], []⟩ (.readFailure ("boom")) :=
  ⟨rfl, setx_read_error_fatal testBackend "SET" "k" "boom" ⟨[], some (.other ("boom"))⟩
    rfl rfl rfl⟩

/-- C10: in stream-mode SET with exactly 2 tokens, whenever the single read
returns n > 0 bytes the dispatcher stores under the key exactly the first
n - 1 bytes read — the final byte is always discarded (`buf [0 : n-1]`), so a
1-byte read stores the empty value — and prints OK or the nil marker
according to the answer of the backend. -/
theorem setx_stores_first_n_minus_one (db : Backend) (t0 k : String) (sr : StdinRead)
    (hv : toUpperStr t0 = "SET") (hne : sr.data ≠ []) :
    ProcessCmd db [t0, k] true sr =
      .normal ⟨[if (db.set k (String.mk (sr.data.take (sr.data.length - 1)))).isSome
                  then "(nil)" else "OK"],
               [.set k (String.mk (sr.data.take (sr.data.length - 1)))]⟩ := by
  have hlen : ¬ sr.data.length = 0 := by simpa [List.length_eq_zero] using hne
  cases hdb : db.set k (String.mk (sr.data.take (sr.data.length - 1))) <;>
    simp [ProcessCmd, hv, hlen, hdb]

/-- Witness for C10: a 1-byte read stores the empty value. -/
theorem setx_stores_first_n_minus_one_witness :
    toUpperStr "SET" = "SET" ∧ ((⟨['a'], none⟩ : StdinRead).data ≠ []) ∧
    ProcessCmd testBackend ["SET", "k"] true ⟨['a'], none⟩
      = .normal ⟨["OK"], [.set ("k") ("")]⟩ :=
  ⟨rfl, by decide,
    setx_stores_first_n_minus_one testBackend "SET" "k" ⟨['a'], none⟩ rfl (by decide)⟩

/-- C8 counterexample: the claim says a recognized verb with a wrong token
count draws a syntax/arity error reply and no backend call whatsoever, in
particular that HSET with a wrong pair count makes no existence query.  On
the five-token line HSET h f v g (an odd field/value tail) the dispatcher
does query scalar existence of h — the call list is nonempty — before
printing the arity error. -/
theorem hset_wrong_pairs_queries_backend :
    ProcessCmd testBackend ["HSET", "h", "f", "v", "g"] false ⟨[], none⟩
      = .normal ⟨["add -x support", arityErr ("hset")], [.existsQ ("h")]⟩ := rfl

/-- C8 amended: for every recognized verb with a mismatched token count the
dispatcher performs no backend write and replies in one line — but the reply
is the nil marker, not an arity error, for HGET, HDEL, GET, DEL and for HSET
with at most 2 tokens (whose branch also prints its stray add-x-support line
first); and HSET with more than 2 tokens but a wrong field/value pair count
first performs exactly one scalar-existence query of the target, replying
WRONGTYPE if the name exists as a scalar and the arity error otherwise.  The
remaining verbs (FLUSHDB, HKEYS, HEXISTS, SET, KEYS, EXISTS) reply with their
syntax/arity error and make no backend call at all. -/
theorem arity_mismatch_behavior (db : Backend) (sr : StdinRead) :
    (∀ x t0 ts, toUpperStr t0 = "FLUSHDB" → (t0 :: ts).length ≠ 1 →
      ProcessCmd db (t0 :: ts) x sr = .normal ⟨["(error) ERR syntax error"], []⟩) ∧
    (∀ x t0 ts, toUpperStr t0 = "HGET" → (t0 :: ts).length ≠ 3 →
      ProcessCmd db (t0 :: ts) x sr = .normal ⟨["(nil)"], []⟩) ∧
    (∀ x t0 ts, toUpperStr t0 = "HDEL" → (t0 :: ts).length ≠ 2 →
      ProcessCmd db (t0 :: ts) x sr = .normal ⟨["(nil)"], []⟩) ∧
    (∀ x t0 ts, toUpperStr t0 = "HKEYS" → (t0 :: ts).length ≠ 2 →
      ProcessCmd db (t0 :: ts) x sr = .normal ⟨[arityErr ("hkeys")], []⟩) ∧
    (∀ x t0 ts, toUpperStr t0 = "HEXISTS" → (t0 :: ts).length ≠ 3 →
      ProcessCmd db (t0 :: ts) x sr = .normal ⟨[arityErr ("exists")], []⟩) ∧
    (∀ x t0 ts, toUpperStr t0 = "GET" → (t0 :: ts).length ≠ 2 →
      ProcessCmd db (t0 :: ts) x sr = .normal ⟨["(nil)"], []⟩) ∧
    (∀ t0 ts, toUpperStr t0 = "SET" → (t0 :: ts).length ≠ 2 →
      ProcessCmd db (t0 :: ts) true sr = .normal ⟨[arityErr ("set")], []⟩) ∧
    (∀ t0 ts, toUpperStr t0 = "SET" → (t0 :: ts).length ≠ 3 →
      ProcessCmd db (t0 :: ts) false sr = .normal ⟨[arityErr ("set")], []⟩) ∧
    (∀ x t0 ts, toUpperStr t0 = "DEL" → (t0 :: ts).length ≠ 2 →
      ProcessCmd db (t0 :: ts) x sr = .normal ⟨["(nil)"], []⟩) ∧
    (∀ x t0 ts, toUpperStr t0 = "KEYS" → (t0 :: ts).length ≠ 2 →
      ProcessCmd db (t0 :: ts) x sr = .normal ⟨[arityErr ("keys")], []⟩) ∧
    (∀ x t0 ts, toUpperStr t0 = "EXISTS" → (t0 :: ts).length ≠ 2 →
      ProcessCmd db (t0 :: ts) x sr = .normal ⟨[arityErr ("exists")], []⟩) ∧
    (∀ x t0 ts, toUpperStr t0 = "HSET" → (t0 :: ts).length ≤ 2 →
      ProcessCmd db (t0 :: ts) x sr = .normal ⟨["add -x support", "(nil)"], []⟩) ∧
    (∀ x t0 a1 ts, toUpperStr t0 = "HSET" → ts ≠ [] →
      ¬((t0 :: a1 :: ts).length ≥ 4 ∧ ((t0 :: a1 :: ts).length - 2) % 2 = 0) →
      ProcessCmd db (t0 :: a1 :: ts) x sr
        = .normal ⟨["add -x support",
                    if db.existsQ a1 then wrongTypeMsg else arityErr ("hset")],
                   [.existsQ a1]⟩) := by
  refine ⟨?_, ?_, ?_, ?_, ?_, ?_, ?_, ?_, ?_, ?_, ?_, ?_, ?_⟩
  · intro x t0 ts hv hlen
    have h2 : ts ≠ [] := by intro hh; subst hh; simp at hlen
    simp [ProcessCmd, hv, h2]
  · intro x t0 ts hv hlen
    have h2 : ¬ ts.length = 2 := by
      intro hh; exact hlen (by simp [hh])
    simp [ProcessCmd, hv, h2]
  · intro x t0 ts hv hlen
    have h2 : ¬ ts.length = 1 := by
      intro hh; exact hlen (by simp [hh])
    simp [ProcessCmd, hv, h2]
  · intro x t0 ts hv hlen
    have h2 : ¬ ts.length = 1 := by
      intro hh; exact hlen (by simp [hh])
    simp [ProcessCmd, hv, h2]
  · intro x t0 ts hv hlen
    have h2 : ¬ ts.length = 2 := by
      intro hh; exact hlen (by simp [hh])
    simp [ProcessCmd, hv, h2]
  · intro x t0 ts hv hlen
    have h2 : ¬ ts.length = 1 := by
      intro hh; exact hlen (by simp [hh])
    simp [ProcessCmd, hv, h2]
  · intro t0 ts hv hlen
    have h2 : ¬ ts.length = 1 := by
      intro hh; exact hlen (by simp [hh])
    simp [ProcessCmd, hv, h2]
  · intro t0 ts hv hlen
    have h2 : ¬ ts.length = 2 := by
      intro hh; exact hlen (by simp [hh])
    simp [ProcessCmd, hv, h2]
  · intro x t0 ts hv hlen
    have h2 : ¬ ts.length = 1 := by
      intro hh; exact hlen (by simp [hh])
    simp [ProcessCmd, hv, h2]
  · intro x t0 ts hv hlen
    have h2 : ¬ ts.length = 1 := by
      intro hh; exact hlen (by simp [hh])
    simp [ProcessCmd, hv, h2]
  · intro x t0 ts hv hlen
    have h2 : ¬ ts.length = 1 := by
      intro hh; exact hlen (by simp [hh])
    simp [ProcessCmd, hv, h2]
  · intro x t0 ts hv hlen
    have h2 : ¬ 2 < ts.length + 1 := by
      simp only [List.length_cons] at hlen; omega
    simp [ProcessCmd, hv, h2]
  · intro x t0 a1 ts hv hts hpair
    have h2 : 2 < (t0 :: a1 :: ts).length := by
      cases ts with
      | nil => exact absurd rfl hts
      | cons a b => simp
    have hp2 : ¬ (2 ≤ ts.length ∧ ts.length % 2 = 0) := by
      simp only [List.length_cons] at hpair
      intro hc
      exact hpair ⟨by omega, by omega⟩
    cases hdb : db.existsQ a1 <;>
      simp [ProcessCmd, hv, h2, hdb, hts, hp2]

/-- Witness for the amended C8: KEYS with three tokens draws the arity error
and no backend call. -/
theorem arity_mismatch_behavior_witness :
    toUpperStr "KEYS" = "KEYS" ∧ (["KEYS", "a", "b"] : List String).length ≠ 2 ∧
    ProcessCmd testBackend ["KEYS", "a", "b"] false ⟨[], none⟩
      = .normal ⟨[arityErr ("keys")], []⟩ :=
  ⟨rfl, by decide,
    (arity_mismatch_behavior testBackend ⟨[], none⟩).2.2.2.2.2.2.2.2.2.1
      false "KEYS" ["a", "b"] rfl (by decide)⟩

end Jkv
